import Mathlib

/-!
Shallow embedding of the SwapSmith bot OrderMonitor
(src/bot/src/services/order-monitor.ts, reproduced inside
src/bot/src/services/__tests__/parseUserCommand.test.ts).

The registry (a JS Map from orderId to TrackedOrder, insertion ordered) is
modelled as a list of TrackedOrder values; timestamps (Date.getTime() and
Date.now() values in milliseconds) are modelled as Int.  The injected
collaborators (getOrderStatus, updateOrderStatus, getPendingOrders,
onStatusChange) are modelled by explicit outcome parameters: a fetch is an
Except value, the persistence write either resolves (writeOk = true) or
rejects, and the notification callback either returns normally or throws
synchronously (notifyThrows = true; a callback returning a promise that later
rejects is indistinguishable from a normal return because the code does not
await it).  pollOrder returns the new registry together with a PollEvents
record that logs whether updateOrderStatus and onStatusChange were invoked
and with which arguments.
-/

namespace SwapSmith

/-- Maximum concurrent API calls to SideShift (MAX_CONCURRENT in the source). -/
def MAX_CONCURRENT : Nat := 5

/-- How often the tick loop runs, in ms (TICK_INTERVAL in the source). -/
def TICK_INTERVAL : Nat := 10000

/-- Terminal statuses: orders in these states stop being tracked. -/
def TERMINAL_STATUSES : List String := ["settled", "expired", "refunded", "failed"]

/-- TERMINAL_STATUSES.has s in the source. -/
def isTerminal (s : String) : Bool := TERMINAL_STATUSES.contains s

/-- getBackoffInterval from the source: polling interval (ms) for an order
based on its age (ms).  JS numbers are modelled as Int. -/
def getBackoffInterval (ageMs : Int) : Int :=
  if ageMs < 5 * 60000 then 15000
  else if ageMs < 30 * 60000 then 60000
  else if ageMs < 2 * 3600000 then 5 * 60000
  else 15 * 60000

/-- SideShiftOrderStatus: the monitor only reads .status; all other fields are
passed through opaquely to the notification callback, modelled as an
association list of extra fields. -/
structure SideShiftOrderStatus where
  id : String
  status : String
  rest : List (String × String)
deriving Repr, DecidableEq

/-- TrackedOrder from the source. -/
structure TrackedOrder where
  orderId : String
  telegramId : Int
  createdAt : Int
  lastChecked : Int
  lastStatus : String
deriving Repr, DecidableEq

/-- The tracked map, as an insertion-ordered list of entries. -/
abbrev Registry := List TrackedOrder

/-- trackedCount getter: this.tracked.size. -/
def trackedCount (reg : Registry) : Nat := reg.length

/-- getTrackedOrderIds: Array.from(this.tracked.keys()). -/
def getTrackedOrderIds (reg : Registry) : List String := reg.map (·.orderId)

/-- this.tracked.get(id), as a lookup in the list model. -/
def lookupOrder (reg : Registry) (id : String) : Option TrackedOrder :=
  reg.find? (fun t => t.orderId == id)

/-- trackOrder(orderId, telegramId, createdAt?): no-op when the id is present,
otherwise inserts an entry with lastChecked = 0 and lastStatus = "pending";
createdAt defaults to the current time. -/
def trackOrder (reg : Registry) (orderId : String) (telegramId : Int)
    (createdAt : Option Int) (now : Int) : Registry :=
  if reg.any (fun t => t.orderId == orderId) then reg
  else reg ++ [{ orderId := orderId, telegramId := telegramId,
                 createdAt := createdAt.getD now, lastChecked := 0,
                 lastStatus := "pending" }]

/-- untrackOrder(orderId): this.tracked.delete(orderId). -/
def untrackOrder (reg : Registry) (orderId : String) : Registry :=
  reg.filter (fun t => t.orderId != orderId)

end SwapSmith

namespace SwapSmith

/-- A row returned by getPendingOrders (the fields loadPendingOrders reads). -/
structure OrderRow where
  sideshiftOrderId : String
  telegramId : Int
  createdAt : Option Int
  status : String
deriving Repr, DecidableEq

/-- Overwrite lastStatus of the entry with the given id (the mutation
tracked.lastStatus = order.status performed through the Map reference). -/
def setLastStatus (reg : Registry) (id : String) (s : String) : Registry :=
  reg.map (fun t => if t.orderId == id then { t with lastStatus := s } else t)

/-- One iteration of the loadPendingOrders loop: trackOrder, then preserve the
DB status on the entry if it is present. -/
def loadOne (now : Int) (reg : Registry) (o : OrderRow) : Registry :=
  let reg1 := trackOrder reg o.sideshiftOrderId o.telegramId o.createdAt now
  if (lookupOrder reg1 o.sideshiftOrderId).isSome then
    setLastStatus reg1 o.sideshiftOrderId o.status
  else reg1

/-- loadPendingOrders: on a successful fetch, fold the loop body over the rows;
on a rejected fetch the catch block only logs, leaving the registry unchanged. -/
def loadPendingOrders (now : Int) (reg : Registry)
    (fetch : Except Unit (List OrderRow)) : Registry :=
  match fetch with
  | Except.error _ => reg
  | Except.ok rows => rows.foldl (loadOne now) reg

/-- Record of which collaborators a single pollOrder call invoked:
wrote = arguments passed to updateOrderStatus (if invoked), notified =
arguments passed to onStatusChange (if invoked, even when it then throws). -/
structure PollEvents where
  wrote : Option (String × String)
  notified : Option (Int × String × String × String × SideShiftOrderStatus)
deriving Repr, DecidableEq

/-- Replace every entry with the given id (the Map holds one) by t. -/
def updateEntry (reg : Registry) (id : String) (t : TrackedOrder) : Registry :=
  reg.map (fun u => if u.orderId == id then t else u)

/-- pollOrder for a single tracked order.  Control flow of the source:
a rejected fetch jumps to the catch block before lastChecked is assigned;
on success lastChecked := now, then if the status changed, lastStatus is
updated in memory, updateOrderStatus is awaited (a rejection jumps to the
catch block, so the notification and the terminal removal are skipped),
onStatusChange is invoked (a synchronous throw jumps to the catch block, so
the terminal removal is skipped), and finally a terminal status is untracked. -/
def pollOrder (reg : Registry) (o : TrackedOrder) (now : Int)
    (fetch : Except Unit SideShiftOrderStatus)
    (writeOk : Bool) (notifyThrows : Bool) : Registry × PollEvents :=
  match fetch with
  | Except.error _ => (reg, ⟨none, none⟩)
  | Except.ok status =>
    let o1 : TrackedOrder := { o with lastChecked := now }
    let newStatus := status.status
    let oldStatus := o.lastStatus
    if newStatus ≠ oldStatus then
      let o2 : TrackedOrder := { o1 with lastStatus := newStatus }
      let reg2 := updateEntry reg o.orderId o2
      if writeOk then
        let ev : PollEvents :=
          ⟨some (o.orderId, newStatus),
           some (o.telegramId, o.orderId, oldStatus, newStatus, status)⟩
        if notifyThrows then (reg2, ev)
        else if isTerminal newStatus then (untrackOrder reg2 o.orderId, ev)
        else (reg2, ev)
      else (reg2, ⟨some (o.orderId, newStatus), none⟩)
    else (updateEntry reg o.orderId o1, ⟨none, none⟩)

/-- The outcome of the three collaborators for a given order in one tick. -/
structure PollOutcome where
  fetch : Except Unit SideShiftOrderStatus
  writeOk : Bool
  notifyThrows : Bool

/-- Promise.allSettled(batch.map(order => this.pollOrder(order))): each poll
settles independently; the per-order registry effects are disjoint (each poll
touches only its own id), so the fan-out is modelled as sequential processing
collecting every order's events. -/
def processBatch (now : Int) (outc : String → PollOutcome) (reg : Registry) :
    List TrackedOrder → Registry × List (String × PollEvents)
  | [] => (reg, [])
  | o :: rest =>
    let r := pollOrder reg o now (outc o.orderId).fetch
      (outc o.orderId).writeOk (outc o.orderId).notifyThrows
    let tail := processBatch now outc r.1 rest
    (tail.1, (o.orderId, r.2) :: tail.2)

/-- The due orders computed by tick: elapsed >= interval. -/
def dueOrders (now : Int) (reg : Registry) : List TrackedOrder :=
  reg.filter (fun o =>
    decide (getBackoffInterval (now - o.createdAt) ≤ now - o.lastChecked))

/-- Length of arr.slice(0, e) for a JS array of the given length:
a negative end counts from the end of the array, clamped at 0. -/
def jsSliceLen (len : Nat) (e : Int) : Nat :=
  if e < 0 then len - e.natAbs else min e.toNat len

/-- The batch dispatched by one tick:
toPoll.slice(0, MAX_CONCURRENT - this.activePollCount). -/
def tickBatch (now : Int) (reg : Registry) (activePollCount : Nat) :
    List TrackedOrder :=
  (dueOrders now reg).take
    (jsSliceLen (dueOrders now reg).length
      ((MAX_CONCURRENT : Int) - (activePollCount : Int)))

/-- Evolution of activePollCount: a tick (with some number of due orders)
dispatches a batch, incrementing the count by the batch size before any poll
settles; each poll's finally block decrements it by one. -/
inductive MonitorStep : Nat → Nat → Prop where
  | tick (a due : Nat) :
      MonitorStep a (a + jsSliceLen due ((MAX_CONCURRENT : Int) - (a : Int)))
  | finish (a : Nat) : MonitorStep (a + 1) a

/-- activePollCount values reachable from the initial value 0. -/
inductive ReachableCount : Nat → Prop where
  | init : ReachableCount 0
  | step {a b : Nat} : ReachableCount a → MonitorStep a b → ReachableCount b

end SwapSmith

namespace SwapSmith

/-- C3: getBackoffInterval returns 15000 for ages below 300000 ms, 60000 on
[300000, 1800000), 300000 on [1800000, 7200000), and 900000 from 7200000 on,
for every non-negative age. -/
theorem getBackoffInterval_spec (a : Int) (h : 0 ≤ a) :
    (a < 300000 → getBackoffInterval a = 15000) ∧
    (300000 ≤ a → a < 1800000 → getBackoffInterval a = 60000) ∧
    (1800000 ≤ a → a < 7200000 → getBackoffInterval a = 300000) ∧
    (7200000 ≤ a → getBackoffInterval a = 900000) := by
  refine ⟨fun h1 => ?_, fun h1 h2 => ?_, fun h1 h2 => ?_, fun h1 => ?_⟩ <;>
    · simp only [getBackoffInterval]
      split_ifs <;> first | rfl | omega

/-- Witness for C3 at the boundary age 300000 ms. -/
theorem getBackoffInterval_spec_witness : getBackoffInterval 300000 = 60000 :=
  (getBackoffInterval_spec 300000 (by decide)).2.1 (by decide) (by decide)

theorem lookupOrder_isSome_iff_any (reg : Registry) (id : String) :
    (lookupOrder reg id).isSome = reg.any (fun t => t.orderId == id) := by
  induction reg with
  | nil => rfl
  | cons t ts ih =>
    simp only [lookupOrder, List.find?_cons, List.any_cons] at *
    cases h : (t.orderId == id) <;> simp [h, ih]
theorem lookupOrder_updateEntry_self (reg : Registry) (id : String)
    (t : TrackedOrder) (ht : t.orderId = id) :
    lookupOrder (updateEntry reg id t) id =
      if (lookupOrder reg id).isSome then some t else none := by
  induction reg with
  | nil => rfl
  | cons u us ih =>
    simp only [lookupOrder, updateEntry, List.map_cons] at *
    by_cases hu : u.orderId = id
    · have h1 : List.find? (fun t => t.orderId == id) (u :: us) = some u :=
        List.find?_cons_of_pos _ (by simp [hu])
      rw [if_pos (by simp [hu]), List.find?_cons_of_pos _ (by simp [ht])]
      simp [h1]
    · have h1 : List.find? (fun t => t.orderId == id) (u :: us) =
          List.find? (fun t => t.orderId == id) us :=
        List.find?_cons_of_neg _ (by simp [hu])
      rw [if_neg (by simp [hu]), List.find?_cons_of_neg _ (by simp [hu])]
      simp only [h1]
      exact ih

theorem lookupOrder_updateEntry_other (reg : Registry) (id id2 : String)
    (t : TrackedOrder) (ht : t.orderId = id) (hne : id2 ≠ id) :
    lookupOrder (updateEntry reg id t) id2 = lookupOrder reg id2 := by
  induction reg with
  | nil => rfl
  | cons u us ih =>
    simp only [lookupOrder, updateEntry, List.map_cons] at *
    by_cases hu : u.orderId = id
    · have h2 : ¬ u.orderId = id2 := by rw [hu]; exact Ne.symm hne
      have h3 : ¬ t.orderId = id2 := by rw [ht]; exact Ne.symm hne
      rw [if_pos (by simp [hu]), List.find?_cons_of_neg _ (by simp [h3]),
        List.find?_cons_of_neg _ (by simp [h2]), ih]
    · rw [if_neg (by simp [hu])]
      by_cases hu2 : u.orderId = id2
      · rw [List.find?_cons_of_pos _ (by simp [hu2]),
          List.find?_cons_of_pos _ (by simp [hu2])]
      · rw [List.find?_cons_of_neg _ (by simp [hu2]),
          List.find?_cons_of_neg _ (by simp [hu2]), ih]

theorem lookupOrder_untrackOrder_self (reg : Registry) (id : String) :
    lookupOrder (untrackOrder reg id) id = none := by
  induction reg with
  | nil => rfl
  | cons u us ih =>
    simp only [untrackOrder, lookupOrder] at *
    by_cases hu : u.orderId = id
    · rw [List.filter_cons_of_neg (by simp [hu])]
      exact ih
    · rw [List.filter_cons_of_pos (by simp [hu]),
        List.find?_cons_of_neg _ (by simp [hu])]
      exact ih

theorem lookupOrder_untrackOrder_other (reg : Registry) (id id2 : String)
    (hne : id2 ≠ id) :
    lookupOrder (untrackOrder reg id) id2 = lookupOrder reg id2 := by
  induction reg with
  | nil => rfl
  | cons u us ih =>
    simp only [untrackOrder, lookupOrder] at *
    by_cases hu : u.orderId = id
    · have h2 : ¬ u.orderId = id2 := by rw [hu]; exact Ne.symm hne
      rw [List.filter_cons_of_neg (by simp [hu]),
        List.find?_cons_of_neg _ (by simp [h2]), ih]
    · rw [List.filter_cons_of_pos (by simp [hu])]
      by_cases hu2 : u.orderId = id2
      · rw [List.find?_cons_of_pos _ (by simp [hu2]),
          List.find?_cons_of_pos _ (by simp [hu2])]
      · rw [List.find?_cons_of_neg _ (by simp [hu2]),
          List.find?_cons_of_neg _ (by simp [hu2]), ih]

/-- Closed form of pollOrder on a successful fetch, by cases over the status
comparison, the write outcome, and the notification outcome. -/
theorem pollOrder_ok_eq (reg : Registry) (o : TrackedOrder) (now : Int)
    (st : SideShiftOrderStatus) (w n : Bool) :
    pollOrder reg o now (Except.ok st) w n =
      if st.status = o.lastStatus then
        (updateEntry reg o.orderId { o with lastChecked := now }, ⟨none, none⟩)
      else if w = false then
        (updateEntry reg o.orderId
           { o with lastChecked := now, lastStatus := st.status },
         ⟨some (o.orderId, st.status), none⟩)
      else if n = false ∧ isTerminal st.status then
        (untrackOrder
           (updateEntry reg o.orderId
             { o with lastChecked := now, lastStatus := st.status }) o.orderId,
         ⟨some (o.orderId, st.status),
          some (o.telegramId, o.orderId, o.lastStatus, st.status, st)⟩)
      else
        (updateEntry reg o.orderId
           { o with lastChecked := now, lastStatus := st.status },
         ⟨some (o.orderId, st.status),
          some (o.telegramId, o.orderId, o.lastStatus, st.status, st)⟩) := by
  by_cases hc : st.status = o.lastStatus
  · simp [pollOrder, hc]
  · cases w <;> cases n <;> by_cases ht : isTerminal st.status <;>
      simp [pollOrder, hc, ht]

/-- Closed form of pollOrder on a successful fetch of an unchanged status. -/
theorem pollOrder_unchanged (reg : Registry) (o : TrackedOrder) (now : Int)
    (st : SideShiftOrderStatus) (w n : Bool) (h : st.status = o.lastStatus) :
    pollOrder reg o now (Except.ok st) w n =
      (updateEntry reg o.orderId { o with lastChecked := now }, ⟨none, none⟩) := by
  rw [pollOrder_ok_eq, if_pos h]

/-- Closed form of pollOrder on a changed status whose persistence write
rejects: lastStatus is already updated in memory, but no notification is
invoked and no removal happens. -/
theorem pollOrder_writeFail_eq (reg : Registry) (o : TrackedOrder) (now : Int)
    (st : SideShiftOrderStatus) (n : Bool) (hch : st.status ≠ o.lastStatus) :
    pollOrder reg o now (Except.ok st) false n =
      (updateEntry reg o.orderId
         { o with lastChecked := now, lastStatus := st.status },
       ⟨some (o.orderId, st.status), none⟩) := by
  rw [pollOrder_ok_eq, if_neg hch, if_pos rfl]

/-- C8: trackOrder is idempotent: when the orderId is already present, calling
trackOrder again (with any telegramId / createdAt arguments) returns the
registry unchanged, so no field of the existing entry is overwritten and
trackedCount is unchanged. -/
theorem trackOrder_idempotent (reg : Registry) (id : String) (tg : Int)
    (cr : Option Int) (now : Int) (h : (lookupOrder reg id).isSome) :
    trackOrder reg id tg cr now = reg := by
  have h2 : reg.any (fun t => t.orderId == id) = true := by
    rw [← lookupOrder_isSome_iff_any]; exact h
  simp [trackOrder, h2]

/-- Witness for C8: re-tracking order o1 with different arguments is a no-op. -/
theorem trackOrder_idempotent_witness :
    trackOrder [⟨"o1", 100, 0, 0, "pending"⟩] "o1" 200 (some 7) 5 =
      [⟨"o1", 100, 0, 0, "pending"⟩] :=
  trackOrder_idempotent _ _ _ _ _ (by decide)

/-- C1 counterexample: a poll whose fetch succeeds with a changed status but
whose persistence write rejects invokes no notification, refuting the stated
"invoked if and only if the fetched status differs". -/
theorem pollOrder_notify_iff_cex :
    ("settled" : String) ≠ "pending" ∧
    (pollOrder [⟨"o1", 100, 0, 0, "pending"⟩] ⟨"o1", 100, 0, 0, "pending"⟩ 5000
      (Except.ok ⟨"o1", "settled", []⟩) false false).2.notified = none :=
  ⟨by decide, rfl⟩

/-- C1 amended: provided the persistence write succeeds, onStatusChange is
invoked exactly when the fetched status differs from lastStatus, with
arguments (telegramId, orderId, oldStatus, newStatus, full status record);
the write is attempted exactly when the status differs; and on an unchanged
status neither collaborator is invoked, whatever their outcomes would be. -/
theorem pollOrder_notify_iff (reg : Registry) (o : TrackedOrder) (now : Int)
    (st : SideShiftOrderStatus) (w n : Bool) :
    ((pollOrder reg o now (Except.ok st) true n).2.notified =
      if st.status ≠ o.lastStatus then
        some (o.telegramId, o.orderId, o.lastStatus, st.status, st)
      else none) ∧
    ((pollOrder reg o now (Except.ok st) w n).2.wrote =
      if st.status ≠ o.lastStatus then some (o.orderId, st.status) else none) ∧
    (st.status = o.lastStatus →
      (pollOrder reg o now (Except.ok st) w n).2 = ⟨none, none⟩) := by
  simp only [pollOrder_ok_eq]
  by_cases hc : st.status = o.lastStatus
  · simp [hc]
  · cases n <;> cases w <;> by_cases hterm : isTerminal st.status <;>
      simp [hc, hterm]

/-- Witness for C1 amended: unchanged status yields no write and no
notification even when the write would reject and the callback would throw. -/
theorem pollOrder_notify_iff_witness :
    (pollOrder [⟨"o1", 100, 0, 0, "pending"⟩] ⟨"o1", 100, 0, 0, "pending"⟩ 5000
      (Except.ok ⟨"o1", "pending", []⟩) false true).2 = ⟨none, none⟩ :=
  (pollOrder_notify_iff [⟨"o1", 100, 0, 0, "pending"⟩] ⟨"o1", 100, 0, 0, "pending"⟩
    5000 ⟨"o1", "pending", []⟩ false true).2.2 rfl

/-- C4 counterexample: a poll whose fetch rejects leaves the registry, and in
particular the order's lastChecked field (still 0, not the poll time 5000),
completely unchanged. -/
theorem pollOrder_lastChecked_cex :
    (pollOrder [⟨"o1", 100, 0, 0, "pending"⟩] ⟨"o1", 100, 0, 0, "pending"⟩ 5000
      (Except.error ()) true false).1 = [⟨"o1", 100, 0, 0, "pending"⟩] ∧
    (0 : Int) ≠ 5000 :=
  ⟨rfl, by decide⟩

/-- C4 amended: lastChecked is set to the poll time exactly on a successful
fetch: a rejected fetch leaves the registry unchanged (so lastChecked keeps
its old value), while after a successful fetch any entry still present under
the polled id has lastChecked = now. -/
theorem pollOrder_lastChecked (reg : Registry) (o : TrackedOrder) (now : Int)
    (st : SideShiftOrderStatus) (w n : Bool) :
    (pollOrder reg o now (Except.error ()) w n).1 = reg ∧
    (∀ t, lookupOrder (pollOrder reg o now (Except.ok st) w n).1 o.orderId =
      some t → t.lastChecked = now) := by
  refine ⟨rfl, fun t hlt => ?_⟩
  rw [pollOrder_ok_eq] at hlt
  split_ifs at hlt
  · rw [lookupOrder_updateEntry_self reg o.orderId
      { o with lastChecked := now } rfl] at hlt
    split at hlt
    · cases hlt; rfl
    · simp at hlt
  · rw [lookupOrder_updateEntry_self reg o.orderId
      { o with lastChecked := now, lastStatus := st.status } rfl] at hlt
    split at hlt
    · cases hlt; rfl
    · simp at hlt
  · rw [lookupOrder_untrackOrder_self] at hlt
    simp at hlt
  · rw [lookupOrder_updateEntry_self reg o.orderId
      { o with lastChecked := now, lastStatus := st.status } rfl] at hlt
    split at hlt
    · cases hlt; rfl
    · simp at hlt

/-- Witness for C4 amended: after a successful poll at time 5000 of an order
whose status is unchanged, the tracked entry has lastChecked = 5000. -/
theorem pollOrder_lastChecked_witness :
    ({ orderId := "o1", telegramId := 100, createdAt := 0, lastChecked := 5000,
       lastStatus := "pending" } : TrackedOrder).lastChecked = 5000 :=
  (pollOrder_lastChecked [⟨"o1", 100, 0, 0, "pending"⟩]
    ⟨"o1", 100, 0, 0, "pending"⟩ 5000 ⟨"o1", "pending", []⟩ true false).2 _ rfl

/-- C9 counterexample: new status settled is terminal and the write succeeds,
yet with a notification callback that throws synchronously the order is NOT
removed from the registry: the catch block intercepts the throw before
untrackOrder runs, even though onStatusChange was invoked. -/
theorem pollOrder_notifyThrow_cex :
    isTerminal "settled" = true ∧
    (pollOrder [⟨"o1", 100, 0, 0, "pending"⟩] ⟨"o1", 100, 0, 0, "pending"⟩ 5000
      (Except.ok ⟨"o1", "settled", []⟩) true true).1 =
      [⟨"o1", 100, 0, 5000, "settled"⟩] ∧
    (pollOrder [⟨"o1", 100, 0, 0, "pending"⟩] ⟨"o1", 100, 0, 0, "pending"⟩ 5000
      (Except.ok ⟨"o1", "settled", []⟩) true true).2.notified.isSome = true :=
  ⟨rfl, rfl, rfl⟩

/-- C9 amended: when the notification callback merely returns a rejected
promise (not awaited, so indistinguishable here from a normal return) the
terminal transition is fully processed and the order is removed; but when the
callback throws synchronously, terminal removal is skipped and the order
remains tracked with its lastStatus already updated, despite onStatusChange
having been invoked with the full transition arguments. -/
theorem pollOrder_notify_failure (reg : Registry) (o : TrackedOrder)
    (now : Int) (st : SideShiftOrderStatus)
    (hpres : (lookupOrder reg o.orderId).isSome = true)
    (hch : st.status ≠ o.lastStatus) (hterm : isTerminal st.status = true) :
    lookupOrder (pollOrder reg o now (Except.ok st) true false).1 o.orderId =
      none ∧
    lookupOrder (pollOrder reg o now (Except.ok st) true true).1 o.orderId =
      some { o with lastChecked := now, lastStatus := st.status } ∧
    (pollOrder reg o now (Except.ok st) true true).2.notified =
      some (o.telegramId, o.orderId, o.lastStatus, st.status, st) := by
  refine ⟨?_, ?_, ?_⟩
  · rw [pollOrder_ok_eq, if_neg hch, if_neg (by decide), if_pos ⟨rfl, hterm⟩]
    exact lookupOrder_untrackOrder_self _ _
  · rw [pollOrder_ok_eq, if_neg hch, if_neg (by decide), if_neg (by simp),
      lookupOrder_updateEntry_self reg o.orderId
        { o with lastChecked := now, lastStatus := st.status } rfl,
      if_pos hpres]
  · rw [pollOrder_ok_eq, if_neg hch, if_neg (by decide), if_neg (by simp)]

/-- Witness for C9 amended at a concrete one-order registry. -/
theorem pollOrder_notify_failure_witness :
    lookupOrder (pollOrder [⟨"o1", 100, 0, 0, "pending"⟩]
      ⟨"o1", 100, 0, 0, "pending"⟩ 5000
      (Except.ok ⟨"o1", "settled", []⟩) true false).1 "o1" = none :=
  (pollOrder_notify_failure [⟨"o1", 100, 0, 0, "pending"⟩]
    ⟨"o1", 100, 0, 0, "pending"⟩ 5000 ⟨"o1", "settled", []⟩
    (by decide) (by decide) (by decide)).1

/-- C10: when the persistence write rejects during a detected change, the
in-memory lastStatus is already the new status, no notification is invoked
and no removal occurs; a subsequent poll fetching the same status then sees
no change, so it fires no events and the order (terminal or not) remains
tracked, only its lastChecked advancing. -/
theorem pollOrder_writeFailure (reg : Registry) (o : TrackedOrder)
    (now now2 : Int) (st st2 : SideShiftOrderStatus) (n w2 n2 : Bool)
    (hpres : (lookupOrder reg o.orderId).isSome = true)
    (hch : st.status ≠ o.lastStatus) (hst2 : st2.status = st.status) :
    lookupOrder (pollOrder reg o now (Except.ok st) false n).1 o.orderId =
      some { o with lastChecked := now, lastStatus := st.status } ∧
    (pollOrder reg o now (Except.ok st) false n).2.notified = none ∧
    (pollOrder reg o now (Except.ok st) false n).2.wrote =
      some (o.orderId, st.status) ∧
    (pollOrder (pollOrder reg o now (Except.ok st) false n).1
        { o with lastChecked := now, lastStatus := st.status } now2
        (Except.ok st2) w2 n2).2 = ⟨none, none⟩ ∧
    lookupOrder (pollOrder (pollOrder reg o now (Except.ok st) false n).1
        { o with lastChecked := now, lastStatus := st.status } now2
        (Except.ok st2) w2 n2).1 o.orderId =
      some { o with lastChecked := now2, lastStatus := st.status } := by
  rw [pollOrder_writeFail_eq reg o now st n hch]
  rw [pollOrder_unchanged _ _ _ _ _ _ (by simpa using hst2)]
  refine ⟨?_, rfl, rfl, rfl, ?_⟩
  · rw [lookupOrder_updateEntry_self reg o.orderId
      { o with lastChecked := now, lastStatus := st.status } rfl, if_pos hpres]
  · simp only [lookupOrder_updateEntry_self
      (updateEntry reg o.orderId
        { o with lastChecked := now, lastStatus := st.status }) o.orderId
      { o with lastChecked := now2, lastStatus := st.status } rfl,
      lookupOrder_updateEntry_self reg o.orderId
        { o with lastChecked := now, lastStatus := st.status } rfl, hpres]
    simp

/-- Witness for C10 at a concrete one-order registry with terminal status. -/
theorem pollOrder_writeFailure_witness :
    (pollOrder [⟨"o1", 100, 0, 0, "pending"⟩] ⟨"o1", 100, 0, 0, "pending"⟩ 5000
      (Except.ok ⟨"o1", "settled", []⟩) false false).2.notified = none :=
  (pollOrder_writeFailure [⟨"o1", 100, 0, 0, "pending"⟩]
    ⟨"o1", 100, 0, 0, "pending"⟩ 5000 6000 ⟨"o1", "settled", []⟩
    ⟨"o1", "settled", []⟩ false true false
    (by decide) (by decide) rfl).2.1

theorem updateEntry_map_orderId (reg : Registry) (id : String)
    (t : TrackedOrder) (ht : t.orderId = id) :
    (updateEntry reg id t).map (fun u => u.orderId) =
      reg.map (fun u => u.orderId) := by
  induction reg with
  | nil => rfl
  | cons u us ih =>
    simp only [updateEntry, List.map_cons] at *
    by_cases hu : u.orderId = id
    · rw [if_pos (by simp [hu]), ih, ht, hu]
    · rw [if_neg (by simp [hu]), ih]

theorem length_untrack_of_mem (reg : Registry) (id : String)
    (hnd : (reg.map (fun u => u.orderId)).Nodup)
    (hmem : id ∈ reg.map (fun u => u.orderId)) :
    (untrackOrder reg id).length + 1 = reg.length := by
  induction reg with
  | nil => simp at hmem
  | cons u us ih =>
    simp only [List.map_cons, List.nodup_cons, List.mem_cons] at hnd hmem
    simp only [untrackOrder]
    by_cases hu : u.orderId = id
    · rw [List.filter_cons_of_neg (by simp [hu])]
      have hall : List.filter (fun t => t.orderId != id) us = us := by
        apply List.filter_eq_self.mpr
        intro t htm
        simp only [bne_iff_ne, ne_eq]
        intro he
        have hmm : t.orderId ∈ us.map (fun u => u.orderId) :=
          List.mem_map_of_mem _ htm
        rw [he, ← hu] at hmm
        exact hnd.1 hmm
      rw [hall]
      simp
    · have hmem2 : id ∈ us.map (fun u => u.orderId) := by
        rcases hmem with he | hm
        · exact absurd he.symm hu
        · exact hm
      rw [List.filter_cons_of_pos (by simp [hu])]
      have := ih hnd.2 hmem2
      simp only [untrackOrder] at this
      simp only [List.length_cons]
      omega

theorem lookupOrder_isSome_of_mem (reg : Registry) (id : String)
    (hmem : id ∈ reg.map (fun u => u.orderId)) :
    (lookupOrder reg id).isSome = true := by
  rw [lookupOrder_isSome_iff_any]
  simp only [List.any_eq_true]
  rcases List.mem_map.mp hmem with ⟨t, htm, he⟩
  exact ⟨t, htm, by simp [he]⟩

/-- C2: for a poll that observes a status change (write and notification
completing normally), a terminal new status removes the order after the write
and notify events, so trackedCount drops by exactly one and the id is gone;
a non-terminal new status leaves the order tracked with the same count. -/
theorem pollOrder_terminal_removal (reg : Registry) (o : TrackedOrder)
    (now : Int) (st : SideShiftOrderStatus)
    (hnd : (reg.map (fun u => u.orderId)).Nodup)
    (hmem : o.orderId ∈ reg.map (fun u => u.orderId))
    (hch : st.status ≠ o.lastStatus) :
    (isTerminal st.status = true →
      trackedCount (pollOrder reg o now (Except.ok st) true false).1 + 1 =
        trackedCount reg ∧
      lookupOrder (pollOrder reg o now (Except.ok st) true false).1
        o.orderId = none ∧
      (pollOrder reg o now (Except.ok st) true false).2.wrote =
        some (o.orderId, st.status) ∧
      (pollOrder reg o now (Except.ok st) true false).2.notified =
        some (o.telegramId, o.orderId, o.lastStatus, st.status, st)) ∧
    (isTerminal st.status = false →
      lookupOrder (pollOrder reg o now (Except.ok st) true false).1
        o.orderId =
        some { o with lastChecked := now, lastStatus := st.status } ∧
      trackedCount (pollOrder reg o now (Except.ok st) true false).1 =
        trackedCount reg) := by
  constructor
  · intro hterm
    rw [pollOrder_ok_eq, if_neg hch, if_neg (by decide), if_pos ⟨rfl, hterm⟩]
    refine ⟨?_, lookupOrder_untrackOrder_self _ _, rfl, rfl⟩
    have hmap := updateEntry_map_orderId reg o.orderId
      { o with lastChecked := now, lastStatus := st.status } rfl
    have hlen := length_untrack_of_mem
      (updateEntry reg o.orderId
        { o with lastChecked := now, lastStatus := st.status }) o.orderId
      (by rw [hmap]; exact hnd) (by rw [hmap]; exact hmem)
    simpa [trackedCount, updateEntry] using hlen
  · intro hterm
    rw [pollOrder_ok_eq, if_neg hch, if_neg (by decide),
      if_neg (by simp [hterm])]
    refine ⟨?_, ?_⟩
    · rw [lookupOrder_updateEntry_self reg o.orderId
        { o with lastChecked := now, lastStatus := st.status } rfl,
        if_pos (lookupOrder_isSome_of_mem reg o.orderId hmem)]
    · simp [trackedCount, updateEntry]

/-- Witness for C2: a settled transition removes the only tracked order. -/
theorem pollOrder_terminal_removal_witness :
    trackedCount (pollOrder [⟨"o1", 100, 0, 0, "pending"⟩]
      ⟨"o1", 100, 0, 0, "pending"⟩ 5000
      (Except.ok ⟨"o1", "settled", []⟩) true false).1 + 1 =
      trackedCount [(⟨"o1", 100, 0, 0, "pending"⟩ : TrackedOrder)] :=
  ((pollOrder_terminal_removal [⟨"o1", 100, 0, 0, "pending"⟩]
    ⟨"o1", 100, 0, 0, "pending"⟩ 5000 ⟨"o1", "settled", []⟩
    (by decide) (by decide) (by decide)).1 (by decide)).1

theorem lookupOrder_trackOrder_self (reg : Registry) (id : String) (tg : Int)
    (cr : Option Int) (now : Int) :
    (lookupOrder (trackOrder reg id tg cr now) id).isSome = true := by
  by_cases h : reg.any (fun t => t.orderId == id) = true
  · simp only [trackOrder, if_pos h]
    rw [lookupOrder_isSome_iff_any]
    exact h
  · simp only [trackOrder, if_neg h, lookupOrder, List.find?_append]
    cases hf : List.find? (fun t => t.orderId == id) reg <;> simp [hf]

theorem lookupOrder_trackOrder_other (reg : Registry) (id id2 : String)
    (tg : Int) (cr : Option Int) (now : Int) (hne : id2 ≠ id) :
    lookupOrder (trackOrder reg id tg cr now) id2 = lookupOrder reg id2 := by
  by_cases h : reg.any (fun t => t.orderId == id) = true
  · simp only [trackOrder, if_pos h]
  · simp only [trackOrder, if_neg h, lookupOrder, List.find?_append]
    cases hf : List.find? (fun t => t.orderId == id2) reg
    · simp [hf, Ne.symm hne]
    · simp [hf]

theorem lookupOrder_setLastStatus_self (reg : Registry) (id s : String) :
    lookupOrder (setLastStatus reg id s) id =
      (lookupOrder reg id).map (fun t => { t with lastStatus := s }) := by
  induction reg with
  | nil => rfl
  | cons u us ih =>
    simp only [setLastStatus, lookupOrder, List.map_cons] at *
    by_cases hu : u.orderId = id
    · rw [if_pos (by simp [hu]), List.find?_cons_of_pos _ (by simp [hu]),
        List.find?_cons_of_pos _ (by simp [hu])]
      rfl
    · rw [if_neg (by simp [hu]), List.find?_cons_of_neg _ (by simp [hu]),
        List.find?_cons_of_neg _ (by simp [hu]), ih]

theorem lookupOrder_setLastStatus_other (reg : Registry) (id id2 s : String)
    (hne : id2 ≠ id) :
    lookupOrder (setLastStatus reg id s) id2 = lookupOrder reg id2 := by
  induction reg with
  | nil => rfl
  | cons u us ih =>
    simp only [setLastStatus, lookupOrder, List.map_cons] at *
    by_cases hu : u.orderId = id
    · have h2 : ¬ u.orderId = id2 := by rw [hu]; exact Ne.symm hne
      rw [if_pos (by simp [hu]),
        List.find?_cons_of_neg _ (by simp [hu, h2, Ne.symm hne]),
        List.find?_cons_of_neg _ (by simp [h2]), ih]
    · rw [if_neg (by simp [hu])]
      by_cases hu2 : u.orderId = id2
      · rw [List.find?_cons_of_pos _ (by simp [hu2]),
          List.find?_cons_of_pos _ (by simp [hu2])]
      · rw [List.find?_cons_of_neg _ (by simp [hu2]),
          List.find?_cons_of_neg _ (by simp [hu2]), ih]

theorem loadOne_establishes (now : Int) (reg : Registry) (r : OrderRow) :
    ∃ t, lookupOrder (loadOne now reg r) r.sideshiftOrderId = some t ∧
      t.lastStatus = r.status := by
  have h1 := lookupOrder_trackOrder_self reg r.sideshiftOrderId r.telegramId
    r.createdAt now
  simp only [loadOne]
  rw [if_pos h1]
  rcases Option.isSome_iff_exists.mp h1 with ⟨t, ht⟩
  rw [lookupOrder_setLastStatus_self, ht]
  exact ⟨_, rfl, rfl⟩

theorem loadOne_other (now : Int) (reg : Registry) (r : OrderRow)
    (id2 : String) (hne : id2 ≠ r.sideshiftOrderId) :
    lookupOrder (loadOne now reg r) id2 = lookupOrder reg id2 := by
  simp only [loadOne]
  split
  · rw [lookupOrder_setLastStatus_other _ _ _ _ hne,
      lookupOrder_trackOrder_other _ _ _ _ _ _ hne]
  · rw [lookupOrder_trackOrder_other _ _ _ _ _ _ hne]

theorem foldl_loadOne_other (now : Int) (rows : List OrderRow) (id2 : String)
    (h : ∀ r ∈ rows, id2 ≠ r.sideshiftOrderId) :
    ∀ reg : Registry,
      lookupOrder (rows.foldl (loadOne now) reg) id2 = lookupOrder reg id2 := by
  induction rows with
  | nil => intro reg; rfl
  | cons r0 rest ih =>
    intro reg
    simp only [List.foldl_cons]
    rw [ih (fun r hr => h r (List.mem_cons_of_mem _ hr)) _,
      loadOne_other now reg r0 id2 (h r0 (List.mem_cons_self _ _))]

theorem foldl_loadOne_establishes (now : Int) (rows : List OrderRow) :
    ∀ reg : Registry,
      (rows.map (fun r => r.sideshiftOrderId)).Nodup →
      ∀ r ∈ rows, ∃ t,
        lookupOrder (rows.foldl (loadOne now) reg) r.sideshiftOrderId =
          some t ∧ t.lastStatus = r.status := by
  induction rows with
  | nil =>
    intro reg hnd r hr
    simp at hr
  | cons r0 rest ih =>
    intro reg hnd r hr
    simp only [List.map_cons, List.nodup_cons] at hnd
    simp only [List.foldl_cons]
    rcases List.mem_cons.mp hr with he | hr2
    · subst he
      have hpre : ∀ q ∈ rest, r.sideshiftOrderId ≠ q.sideshiftOrderId := by
        intro q hq he2
        exact hnd.1 (he2 ▸ List.mem_map_of_mem _ hq)
      rw [foldl_loadOne_other now rest r.sideshiftOrderId hpre]
      exact loadOne_establishes now reg r
    · exact ih (loadOne now reg r0) hnd.2 r hr2

/-- C7: after a successful loadPendingOrders, every fetched order is present
in the registry with lastStatus equal to its persisted status; when
getPendingOrders rejects, the registry is left unchanged (and the call
resolves rather than throwing, which the total model reflects). -/
theorem loadPendingOrders_reconciles (now : Int) (reg : Registry)
    (rows : List OrderRow)
    (hnd : (rows.map (fun r => r.sideshiftOrderId)).Nodup) :
    (∀ r ∈ rows, ∃ t,
      lookupOrder (loadPendingOrders now reg (Except.ok rows))
        r.sideshiftOrderId = some t ∧ t.lastStatus = r.status) ∧
    loadPendingOrders now reg (Except.error ()) = reg :=
  ⟨foldl_loadOne_establishes now rows reg hnd, rfl⟩

/-- Witness for C7: loading one waiting order records status waiting. -/
theorem loadPendingOrders_reconciles_witness :
    ∃ t, lookupOrder (loadPendingOrders 9 []
        (Except.ok [⟨"order-a", 12345, some 3, "waiting"⟩])) "order-a" =
      some t ∧ t.lastStatus = "waiting" :=
  (loadPendingOrders_reconciles 9 [] [⟨"order-a", 12345, some 3, "waiting"⟩]
    (by decide)).1 ⟨"order-a", 12345, some 3, "waiting"⟩ (by decide)

/-- C6: a rejected fetch leaves the registry fully unchanged (the order stays
tracked with its lastStatus intact) and invokes neither the write nor the
notification; and in a tick's fan-out, the orders whose fetch rejects are
transparent: the resulting registry, and the recorded events of every other
order, are exactly those of processing the batch without them. -/
theorem pollOrder_error_isolation (reg : Registry) (o : TrackedOrder)
    (now : Int) (w n : Bool) (outc : String → PollOutcome) (A : String)
    (hA : (outc A).fetch = Except.error ()) (batch : List TrackedOrder) :
    pollOrder reg o now (Except.error ()) w n = (reg, ⟨none, none⟩) ∧
    (processBatch now outc reg batch).1 =
      (processBatch now outc reg
        (batch.filter (fun t => t.orderId != A))).1 ∧
    (processBatch now outc reg batch).2.filter (fun p => p.1 != A) =
      (processBatch now outc reg
        (batch.filter (fun t => t.orderId != A))).2 := by
  refine ⟨rfl, ?_⟩
  induction batch generalizing reg with
  | nil => exact ⟨rfl, rfl⟩
  | cons o0 rest ih =>
    by_cases h0 : o0.orderId = A
    · have hp : pollOrder reg o0 now (outc o0.orderId).fetch
          (outc o0.orderId).writeOk (outc o0.orderId).notifyThrows =
          (reg, ⟨none, none⟩) := by
        rw [h0, hA]
        rfl
      refine ⟨?_, ?_⟩
      · simp only [processBatch, hp]
        rw [List.filter_cons_of_neg (by simp [h0])]
        exact (ih reg).1
      · simp only [processBatch, hp]
        rw [List.filter_cons_of_neg (by simp [h0]),
          List.filter_cons_of_neg (by simp [h0])]
        exact (ih reg).2
    · have hbatch : List.filter (fun t => t.orderId != A) (o0 :: rest) =
          o0 :: List.filter (fun t => t.orderId != A) rest :=
        List.filter_cons_of_pos (by simp [h0])
      rw [hbatch]
      refine ⟨?_, ?_⟩
      · simp only [processBatch]
        exact (ih _).1
      · simp only [processBatch]
        rw [List.filter_cons_of_pos (by simp [h0])]
        exact congrArg _ (ih _).2

/-- Witness for C6: an erroring poll returns the registry unchanged with no
events. -/
theorem pollOrder_error_isolation_witness :
    pollOrder [⟨"o1", 100, 0, 0, "pending"⟩] ⟨"o1", 100, 0, 0, "pending"⟩ 5000
      (Except.error ()) true false =
      ([⟨"o1", 100, 0, 0, "pending"⟩], ⟨none, none⟩) :=
  (pollOrder_error_isolation [⟨"o1", 100, 0, 0, "pending"⟩]
    ⟨"o1", 100, 0, 0, "pending"⟩ 5000 true false
    (fun _ => ⟨Except.error (), true, false⟩) "o1" rfl
    [⟨"o1", 100, 0, 0, "pending"⟩]).1

theorem pollOrder_lookup_other (reg : Registry) (o : TrackedOrder) (now : Int)
    (fetch : Except Unit SideShiftOrderStatus) (w n : Bool) (id2 : String)
    (hne : id2 ≠ o.orderId) :
    lookupOrder (pollOrder reg o now fetch w n).1 id2 = lookupOrder reg id2 := by
  cases fetch with
  | error e => rfl
  | ok st =>
    rw [pollOrder_ok_eq]
    split_ifs
    · exact lookupOrder_updateEntry_other _ _ _ _ rfl hne
    · exact lookupOrder_updateEntry_other _ _ _ _ rfl hne
    · rw [lookupOrder_untrackOrder_other _ _ _ hne]
      exact lookupOrder_updateEntry_other _ _ _ _ rfl hne
    · exact lookupOrder_updateEntry_other _ _ _ _ rfl hne

theorem processBatch_lookup_other (now : Int) (outc : String → PollOutcome)
    (batch : List TrackedOrder) (id2 : String)
    (h : ∀ o ∈ batch, id2 ≠ o.orderId) :
    ∀ reg : Registry,
      lookupOrder (processBatch now outc reg batch).1 id2 =
        lookupOrder reg id2 := by
  induction batch with
  | nil => intro reg; rfl
  | cons o0 rest ih =>
    intro reg
    simp only [processBatch]
    rw [ih (fun o ho => h o (List.mem_cons_of_mem _ ho)),
      pollOrder_lookup_other _ _ _ _ _ _ _ (h o0 (List.mem_cons_self _ _))]

theorem jsSliceLen_le (len : Nat) (e : Int) (he : 0 ≤ e) :
    jsSliceLen len e ≤ e.toNat := by
  unfold jsSliceLen
  rw [if_neg (by omega)]
  exact min_le_left _ _

theorem reachable_count_le (a : Nat) (h : ReachableCount a) :
    a ≤ MAX_CONCURRENT := by
  induction h with
  | init => exact Nat.zero_le _
  | @step x y hr hs ih =>
    cases hs with
    | tick =>
      rename_i due
      have h0 : (0 : Int) ≤ (MAX_CONCURRENT : Int) - (x : Int) := by
        simp only [MAX_CONCURRENT] at ih ⊢
        omega
      have h1 := jsSliceLen_le due ((MAX_CONCURRENT : Int) - (x : Int)) h0
      simp only [MAX_CONCURRENT] at *
      omega
    | finish =>
      simp only [MAX_CONCURRENT] at *
      omega

/-- C5: the in-flight poll count never exceeds MAX_CONCURRENT = 5 along any
run of ticks and poll completions from the initial count 0 (each tick
dispatches at most the remaining budget, even while earlier polls are still
in flight); a single tick's batch size plus the current in-flight count stays
within the cap; and orders none of whose ids are in the dispatched batch are
left untouched in the registry by the batch processing. -/
theorem monitor_concurrency_cap :
    (∀ a, ReachableCount a → a ≤ MAX_CONCURRENT) ∧
    (∀ now reg a, a ≤ MAX_CONCURRENT →
      (tickBatch now reg a).length + a ≤ MAX_CONCURRENT) ∧
    (∀ now outc batch id2 reg, (∀ o ∈ batch, id2 ≠ o.orderId) →
      lookupOrder (processBatch now outc reg batch).1 id2 =
        lookupOrder reg id2) := by
  refine ⟨fun a h => reachable_count_le a h, ?_, ?_⟩
  · intro now reg a ha
    have h0 : (0 : Int) ≤ (MAX_CONCURRENT : Int) - (a : Int) := by
      simp only [MAX_CONCURRENT] at ha ⊢
      omega
    have h1 := jsSliceLen_le (dueOrders now reg).length
      ((MAX_CONCURRENT : Int) - (a : Int)) h0
    simp only [tickBatch, List.length_take]
    simp only [MAX_CONCURRENT] at *
    omega
  · intro now outc batch id2 reg h
    exact processBatch_lookup_other now outc batch id2 h reg

/-- Witness for C5: the initial count obeys the cap, a tick over an empty
registry dispatches within budget, and a batch not containing an id leaves
that id's entry untouched. -/
theorem monitor_concurrency_cap_witness :
    (0 : Nat) ≤ MAX_CONCURRENT ∧
    (tickBatch 0 [] 0).length + 0 ≤ MAX_CONCURRENT ∧
    lookupOrder (processBatch 0 (fun _ => ⟨Except.error (), true, false⟩)
      [] [⟨"o1", 100, 0, 0, "pending"⟩]).1 "x" = lookupOrder [] "x" :=
  ⟨monitor_concurrency_cap.1 0 ReachableCount.init,
   monitor_concurrency_cap.2.1 0 [] 0 (by decide),
   monitor_concurrency_cap.2.2 0 (fun _ => ⟨Except.error (), true, false⟩)
     [⟨"o1", 100, 0, 0, "pending"⟩] "x" [] (by decide)⟩
